/-
Verification of the hellodrkey example (scion-apps): the endpoint address
parser, the DRKey client/server demo flows, and the C-callable
GetDelegationSecret shim, shallowly embedded from
_examples/hellodrkey/hellodrkey.go and its C callers.

External collaborators (the sciond daemon, the scionproto addr/drkey
libraries) are modelled abstractly: parsers and the daemon RPC are
parameters of the embedded functions, mirroring how the Go code calls out
to them.
-/
import Mathlib

namespace HelloDRKey

/-! ## Data model

`addr.IA` in the scionproto library is a pair of a 16-bit ISD and a
48-bit AS number; `addr.IAInt` is its packed 64-bit integer form. -/

structure IA where
  isd : Nat
  as_ : Nat
deriving DecidableEq, Repr

/-- `addr.IAInt(n).IA()`: decode a packed 64-bit IA integer into the
ISD (top 16 bits) and AS (low 48 bits) components. -/
def iaIntIA (n : Nat) : IA :=
  { isd := n % 2 ^ 64 / 2 ^ 48, as_ := n % 2 ^ 48 }

/-- Model of the scionproto `addr.HostAddr` interface values relevant
here: an anycast service address (`addr.HostSVC`, a 16-bit value) or an
IP host address (modelled by its bytes). -/
inductive HostAddr where
  | svc (v : Nat)
  | ip (bytes : List Nat)
deriving DecidableEq, Repr

/-- The library constant `addr.SvcNone` (the 16-bit value 0xffff). -/
def SvcNone : Nat := 0xffff

/-- `snet.SCIONAddress`: an IA plus a host address. The Go zero value has
a zero IA and a nil (`none`) host. -/
structure SCIONAddress where
  ia : IA
  host : Option HostAddr
deriving DecidableEq, Repr

/-- The Go zero value `snet.SCIONAddress{}`. -/
def zeroSCIONAddress : SCIONAddress :=
  { ia := { isd := 0, as_ := 0 }, host := none }

/-! ## The endpoint address parser

`addrFromString` matches the anchored regular expression
`^(\d+-[\d:A-Fa-f]+),\[([^\]]+)\]$` and hands the two capture groups to
the library parsers. The regex is deterministic on any matching string:
group 1 draws only on digits, a dash, and hex/colon characters (never a
comma or bracket), so the literal comma of the pattern is the first comma
of the subject, and group 2 excludes the closing bracket, so the final
bracket of the pattern is the only closing bracket. -/

/-- Character class `[\d:A-Fa-f]`. -/
def isHexColon (c : Char) : Bool :=
  c.isDigit || c = ':' || ('A' ≤ c && c ≤ 'F') || ('a' ≤ c && c ≤ 'f')

/-- Does a character list match `\d+-[\d:A-Fa-f]+` exactly? A nonempty
digit run, a dash, then a nonempty run of hex/colon characters. -/
def matchIA (l : List Char) : Bool :=
  match l.dropWhile Char.isDigit with
  | x :: hs =>
    !(l.takeWhile Char.isDigit).isEmpty && (x == '-') && !hs.isEmpty &&
      hs.all isHexColon
  | [] => false

/-- `addrRegexp.FindStringSubmatch`: match the whole subject against
`^(\d+-[\d:A-Fa-f]+),\[([^\]]+)\]$`, returning the two capture groups.
Because group 1 cannot contain a comma, the pattern's comma is the
subject's first comma; because group 2 cannot contain a closing bracket,
the pattern's closing bracket is the subject's final character. -/
def findSubmatch (l : List Char) : Option (List Char × List Char) :=
  match l.dropWhile (fun c => c ≠ ',') with
  | _ :: lb :: rest =>
    if matchIA (l.takeWhile (fun c => c ≠ ',')) ∧ lb = '[' ∧
        rest.getLast? = some ']' ∧ rest.dropLast ≠ [] ∧
        ∀ c ∈ rest.dropLast, c ≠ ']' then
      some (l.takeWhile (fun c => c ≠ ','), rest.dropLast)
    else none
  | _ => none

/-- The three error classes of `addrFromString`, each carrying the
substring interpolated into its message. -/
inductive AddrErr where
  /-- `"no valid SCION address: %q"` (overall shape mismatch). -/
  | noValidSCIONAddress (address : String)
  /-- `"invalid IA string: %v"` (group 1 rejected by `addr.IAFromString`). -/
  | invalidIA (ia : String)
  /-- `"invalid IP address string: %v"` (group 2 is neither a service
  alias nor a parsable IP literal). -/
  | invalidIPAddress (l3 : String)
deriving DecidableEq, Repr

/-- `addrFromString`, parameterised by the external scionproto parsers:
`iaF` models `addr.IAFromString` (`none` = error), `svcF` models
`addr.HostSVCFromString` (returning a 16-bit service value, `SvcNone` for
unknown strings), and `ipF` models `addr.HostFromIPStr` (`none` = nil).
Returns the Go pair (address, error). -/
def addrFromString (iaF : String → Option IA) (svcF : String → Nat)
    (ipF : String → Option HostAddr) (address : String) :
    SCIONAddress × Option AddrErr :=
  match findSubmatch address.data with
  | none => (zeroSCIONAddress, some (.noValidSCIONAddress address))
  | some (g1, g2) =>
    match iaF (String.mk g1) with
    | none => (zeroSCIONAddress, some (.invalidIA (String.mk g1)))
    | some ia =>
      let hostSVC := svcF (String.mk g2)
      if hostSVC ≠ SvcNone then
        ({ ia := ia, host := some (.svc hostSVC) }, none)
      else
        match ipF (String.mk g2) with
        | none => (zeroSCIONAddress, some (.invalidIPAddress (String.mk g2)))
        | some l3 => ({ ia := ia, host := some l3 }, none)

/-! ## DRKey data model (scionproto `drkey` package) -/

/-- `drkey` level-2 key types. -/
inductive KeyType where
  | as2AS
  | as2Host
  | host2Host
deriving DecidableEq, Repr

/-- A key validity epoch: `[notBefore, notAfter)`, both Unix seconds. -/
structure Epoch where
  notBefore : Int
  notAfter : Int
deriving DecidableEq, Repr

/-- `drkey.Lvl2Meta`: which level-2 key is requested. Hosts are
`addr.HostAddr` interface values, nil (`none`) when unset. -/
structure Lvl2Meta where
  keyType : KeyType
  protocol : String
  srcIA : IA
  dstIA : IA
  srcHost : Option HostAddr
  dstHost : Option HostAddr
deriving DecidableEq, Repr

/-- `drkey.Lvl2Key`: the metadata it answers, its epoch, and the raw key
bytes. -/
structure Lvl2Key where
  keyType : KeyType
  protocol : String
  srcIA : IA
  dstIA : IA
  srcHost : Option HostAddr
  dstHost : Option HostAddr
  epoch : Epoch
  key : List Nat
deriving DecidableEq, Repr

/-- `drkey.DelegationSecret`. -/
structure DelegationSecret where
  protocol : String
  epoch : Epoch
  srcIA : IA
  dstIA : IA
  key : List Nat
deriving DecidableEq, Repr

/-! ## The daemon boundary

Every daemon call in the Go file is
`DRKeyGetLvl2Key(ctx, meta, valTime)` under a context carrying a
10-second timeout.  A request records the metadata, the validity time
(Unix seconds, UTC) and that timeout bound; a `Connector` is the response
behaviour of a connected daemon, and a `SciondService` additionally
models `sciond.NewService(addr).Connect`. An `Except.error` outcome is a
daemon/connection error, which the Go code turns into a fatal abort via
`check`; in this embedding the error is propagated as the (aborting)
result of the whole call. -/

structure DRKeyRequest where
  meta : Lvl2Meta
  valTime : Int
  timeoutSec : Nat
deriving DecidableEq, Repr

def Connector : Type := DRKeyRequest → Except String Lvl2Key

structure SciondService where
  connect : String → Except String Connector

/-- `Client.HostKey`: one bounded-timeout level-2 key request at time
`now`. -/
def HostKey (sd : Connector) (now : Int) (meta : Lvl2Meta) :
    Except String Lvl2Key :=
  sd { meta := meta, valTime := now, timeoutSec := 10 }

/-- The AS-to-AS metadata `dsMeta` built by `Server.dsForServer`: key type
AS2AS, the protocol and IA pair taken from `meta`, hosts unset. -/
def dsMetaOf (meta : Lvl2Meta) : Lvl2Meta :=
  { keyType := .as2AS, protocol := meta.protocol,
    srcIA := meta.srcIA, dstIA := meta.dstIA,
    srcHost := none, dstHost := none }

/-- `Server.dsForServer`: request the AS-to-AS key for `now`, build the
delegation secret from that response, then re-request at
`epoch.NotAfter + 1s` and `epoch.NotBefore - 1s` (printing each), and
return the delegation secret built from the first response. -/
def dsForServer (sd : Connector) (now : Int) (meta : Lvl2Meta) :
    Except String DelegationSecret := do
  let dsMeta := dsMetaOf meta
  let lvl2Key ← sd { meta := dsMeta, valTime := now, timeoutSec := 10 }
  let ds : DelegationSecret :=
    { protocol := lvl2Key.protocol, epoch := lvl2Key.epoch,
      srcIA := lvl2Key.srcIA, dstIA := lvl2Key.dstIA, key := lvl2Key.key }
  let next := lvl2Key.epoch.notAfter + 1
  let _lvl2KeyNext ← sd { meta := dsMeta, valTime := next, timeoutSec := 10 }
  let prev := lvl2Key.epoch.notBefore - 1
  let _lvl2KeyPrev ← sd { meta := dsMeta, valTime := prev, timeoutSec := 10 }
  return ds

/-! ## The derivation registry (scionproto `protocol` package)

`protocol.KnownDerivations` maps protocol names to derivation
implementations; only some of them implement the
`protocol.DelegatedDerivation` interface. A Go type assertion without an
ok-flag on a missing key (nil interface) or on a non-delegated
implementation panics. -/

inductive RegEntry where
  /-- An implementation of `protocol.DelegatedDerivation`. -/
  | delegated (deriveLvl2FromDS :
      Lvl2Meta → DelegationSecret → Except String Lvl2Key)
  /-- A derivation that does not implement `DelegatedDerivation`. -/
  | basic

def Registry : Type := String → Option RegEntry

/-- The panic message of a failed Go type assertion, standing for the
crash of `(protocol.KnownDerivations["piskes"]).(protocol.DelegatedDerivation)`. -/
def assertionFailed : String := "interface conversion failed"

/-- `Server.HostKeyFromDS`: fetch the entry registered under the literal
name "piskes", assert it is a `DelegatedDerivation` (panicking
otherwise), and derive the level-2 key from the delegation secret;
a derivation error is fatal via `check`. -/
def HostKeyFromDS (reg : Registry) (meta : Lvl2Meta)
    (ds : DelegationSecret) : Except String Lvl2Key :=
  match reg "piskes" with
  | some (.delegated deriveLvl2FromDS) => deriveLvl2FromDS meta ds
  | some .basic => .error assertionFailed
  | none => .error assertionFailed

/-! ## The foreign-call shim -/

/-- Go `copy(dst, src)` on byte slices: copies
`min (length dst) (length src)` bytes from the front of `src` into the
front of `dst`, leaving the rest of `dst` unchanged. -/
def goCopy (dst src : List Nat) : List Nat :=
  src.take (min dst.length src.length) ++ dst.drop (min dst.length src.length)

/-- The single daemon request issued by `GetDelegationSecret`: AS-to-AS,
protocol "piskes", the IAs decoded from the two packed 64-bit integers,
the given validity time, under the 10-second timeout. -/
def gdsRequest (srcIA dstIA : Nat) (valTime : Int) : DRKeyRequest :=
  { meta := { keyType := .as2AS, protocol := "piskes",
              srcIA := iaIntIA srcIA, dstIA := iaIntIA dstIA,
              srcHost := none, dstHost := none },
    valTime := valTime, timeoutSec := 10 }

/-- The three writes `GetDelegationSecret` performs through its output
pointers: `*validityNotBefore`, `*validityNotAfter`, and the post-state
of the caller's 16-byte key buffer. -/
structure GDSOutput where
  validityNotBefore : Int
  validityNotAfter : Int
  key : List Nat
deriving DecidableEq, Repr

/-- The exported shim `GetDelegationSecret`: connect to the daemon at
`sciondAddr`, request the AS-to-AS "piskes" key for the IA pair decoded
from `srcIA`/`dstIA`, valid at Unix time `valTime`, under a 10-second
timeout; on success write the epoch bounds (Unix seconds) and copy the
returned key into the caller's 16-byte buffer `keyBuf`. Any daemon error
aborts the process (`check`), modelled by the propagated `Except.error`. -/
def GetDelegationSecret (svc : SciondService) (sciondAddr : String)
    (srcIA dstIA : Nat) (valTime : Int) (keyBuf : List Nat) :
    Except String GDSOutput := do
  let sd ← svc.connect sciondAddr
  let lvl2Key ← sd (gdsRequest srcIA dstIA valTime)
  return { validityNotBefore := lvl2Key.epoch.notBefore,
           validityNotAfter := lvl2Key.epoch.notAfter,
           key := goCopy keyBuf lvl2Key.key }

/-! ## The packed-buffer shim variant and its C-side decoding

The second C caller (`src/unnamed/part_000`) passes one 32-byte buffer
and decodes it as 8 bytes not-before, 8 bytes not-after, 16 bytes key,
all native-endian (little-endian here). -/

/-- The 8 little-endian base-256 digits of `n % 2^64`. -/
def natLEBytes8 (n : Nat) : List Nat :=
  [n % 256, n / 256 % 256, n / 256 ^ 2 % 256, n / 256 ^ 3 % 256,
   n / 256 ^ 4 % 256, n / 256 ^ 5 % 256, n / 256 ^ 6 % 256,
   n / 256 ^ 7 % 256]

/-- A signed 64-bit integer as its 8 two's-complement little-endian
bytes. -/
def encInt64 (x : Int) : List Nat :=
  natLEBytes8 (x % (2 ^ 64 : Int)).toNat

/-- Read a little-endian natural from a byte list. -/
def decNatLE : List Nat → Nat
  | [] => 0
  | b :: bs => b % 256 + 256 * decNatLE bs

/-- Read a two's-complement signed 64-bit integer from 8 little-endian
bytes (the C caller's `memcpy` into an `int64_t`). -/
def decInt64 (bs : List Nat) : Int :=
  let u := decNatLE bs
  if u < 2 ^ 63 then (u : Int) else (u : Int) - 2 ^ 64

/-- Modelled from the spec: the packed-buffer variant of the
`GetDelegationSecret` shim is not among the given source files (only its
C caller `src/unnamed/part_000` is). Per the spec it performs the same
daemon interaction and "writes outputs into a single contiguous byte
buffer (fixed layout: 8+8+16 = 32 bytes, native-endian)" — not-before,
not-after, then the 16-byte key region, the key copied as in the
discrete-pointer variant. -/
def GetDelegationSecretPacked (svc : SciondService) (sciondAddr : String)
    (srcIA dstIA : Nat) (valTime : Int) (buf : List Nat) :
    Except String (List Nat) := do
  let sd ← svc.connect sciondAddr
  let lvl2Key ← sd (gdsRequest srcIA dstIA valTime)
  return encInt64 lvl2Key.epoch.notBefore ++ encInt64 lvl2Key.epoch.notAfter ++
    goCopy ((buf.drop 16).take 16) lvl2Key.key

/-- The C caller's decoding of the packed 32-byte buffer: `memcpy` of
bytes 0..7 into not-before, 8..15 into not-after, 16..31 into the key. -/
def decodePacked (bs : List Nat) : Int × Int × List Nat :=
  (decInt64 (bs.take 8), decInt64 ((bs.drop 8).take 8), (bs.drop 16).take 16)

/-! ## The demo driver's role selection -/

inductive Role where
  | client
  | server
deriving DecidableEq, Repr

/-- `main`'s flag defaulting: with neither `-client` nor `-server`, both
roles are enabled. -/
def rolesAfterDefault (clientRole serverRole : Bool) : Bool × Bool :=
  if !clientRole && !serverRole then (true, true) else (clientRole, serverRole)

/-- The sequence of roles `main` executes: the client block, then the
server block, each guarded by its (defaulted) flag. -/
def rolesRun (clientRole serverRole : Bool) : List Role :=
  let flags := rolesAfterDefault clientRole serverRole
  (if flags.1 then [Role.client] else []) ++
    (if flags.2 then [Role.server] else [])

/-! ## Concrete fixtures (used to evaluate the definitions on sample
inputs, mirroring the values of the C callers and the driver defaults) -/

/-- A sample daemon response. -/
def egKey : Lvl2Key :=
  { keyType := .as2AS, protocol := "piskes",
    srcIA := iaIntIA 0x0011ffaa00010d69, dstIA := iaIntIA 0x0011ffaa00010e97,
    srcHost := none, dstHost := none,
    epoch := { notBefore := 1600000000, notAfter := 1600000010 },
    key := [0, 1, 2, 3, 4, 5, 6, 7, 8, 9, 10, 11, 12, 13, 14, 15] }

/-- A daemon connector answering every request with `egKey`. -/
def egConnector : Connector := fun _ => Except.ok egKey

/-- A service whose connection always succeeds with `egConnector`. -/
def egService : SciondService := { connect := fun _ => Except.ok egConnector }

/-- A service whose connection always fails. -/
def failService : SciondService :=
  { connect := fun _ => Except.error "connection refused" }

/-- A sample host-to-host metadata value (the server role's `meta`). -/
def egMeta : Lvl2Meta :=
  { keyType := .host2Host, protocol := "piskes",
    srcIA := { isd := 1, as_ := 0xff0000000111 },
    dstIA := { isd := 1, as_ := 0xff0000000112 },
    srcHost := some (.ip [127, 0, 0, 1]),
    dstHost := some (.ip [1, 2, 3, 4]) }

/-- `egMeta` with different key type and hosts but the same protocol and
IA pair. -/
def egMetaVariant : Lvl2Meta :=
  { egMeta with keyType := .as2Host, srcHost := none,
                dstHost := some (.svc 2) }

/-- `egMeta` under a protocol name other than "piskes". -/
def colibriMeta : Lvl2Meta := { egMeta with protocol := "colibri" }

/-- A sample delegation secret. -/
def egDS : DelegationSecret :=
  { protocol := "piskes", epoch := { notBefore := 0, notAfter := 10 },
    srcIA := { isd := 1, as_ := 0xff0000000111 },
    dstIA := { isd := 1, as_ := 0xff0000000112 },
    key := [0, 1, 2, 3, 4, 5, 6, 7, 8, 9, 10, 11, 12, 13, 14, 15] }

/-- A registry with exactly one entry, a delegated derivation under
"piskes" that always answers `egKey`. -/
def piskesOnlyRegistry : Registry := fun s =>
  if s = "piskes" then some (.delegated (fun _ _ => Except.ok egKey)) else none

/-- A sample IA parser accepting exactly the string "1-ff". -/
def egIaF : String → Option IA := fun s =>
  if s = String.mk ['1', '-', 'f', 'f'] then
    some { isd := 1, as_ := 255 }
  else none

/-- A sample service-alias parser recognising nothing. -/
def egSvcF : String → Nat := fun _ => SvcNone

/-- A sample IP parser accepting exactly the string "127". -/
def egIpF : String → Option HostAddr := fun s =>
  if s = String.mk ['1', '2', '7'] then some (.ip [127]) else none

/-! ## Helper lemmas -/

lemma goCopy_length (dst src : List Nat) :
    (goCopy dst src).length = dst.length := by
  simp [goCopy]

lemma goCopy_eq_of_lengths (dst src : List Nat) (hd : dst.length = 16)
    (hs : src.length = 16) : goCopy dst src = src := by
  have h1 : List.take 16 src = src := by rw [← hs]; exact List.take_length src
  have h2 : List.drop 16 dst = [] := by rw [← hd]; exact List.drop_length dst
  simp [goCopy, hd, hs, h1, h2]

/-! ## C8: role selection -/

/-- C8: with neither flag, both roles run, client first then server,
each once; with exactly one flag, only that role runs. -/
theorem rolesRun_flag_selection :
    rolesRun false false = [Role.client, Role.server] ∧
    rolesRun true false = [Role.client] ∧
    rolesRun false true = [Role.server] := by
  decide

/-! ## C9: the delegation-secret request ignores key type and hosts -/

/-- C9: `dsForServer` reads only the protocol and IA pair of its
metadata: two metadata values agreeing there yield the same AS2AS request
metadata (hosts unset) and, against any daemon, the same result. -/
theorem dsForServer_depends_only_on_proto_ias (meta meta' : Lvl2Meta)
    (hp : meta.protocol = meta'.protocol) (hs : meta.srcIA = meta'.srcIA)
    (hd : meta.dstIA = meta'.dstIA) :
    dsMetaOf meta = dsMetaOf meta' ∧
    (dsMetaOf meta).keyType = KeyType.as2AS ∧
    (dsMetaOf meta).srcHost = none ∧ (dsMetaOf meta).dstHost = none ∧
    ∀ (sd : Connector) (now : Int),
      dsForServer sd now meta = dsForServer sd now meta' := by
  have h : dsMetaOf meta = dsMetaOf meta' := by
    simp [dsMetaOf, hp, hs, hd]
  exact ⟨h, rfl, rfl, rfl, fun sd now => by simp [dsForServer, h]⟩

/-- C9 witness: two concrete metadata values differing in key type and
both hosts produce the same request metadata. -/
theorem dsForServer_depends_only_on_proto_ias_witness :
    dsMetaOf egMeta = dsMetaOf egMetaVariant ∧
    dsForServer egConnector 0 egMeta = dsForServer egConnector 0 egMetaVariant := by
  have h := dsForServer_depends_only_on_proto_ias egMeta egMetaVariant rfl rfl rfl
  exact ⟨h.1, h.2.2.2.2 egConnector 0⟩

/-! ## C5: the delegation secret comes from the first response -/

/-- C5: when the daemon answers the request for `now` with `k` and the
two boundary re-requests (at `k.epoch.notAfter + 1` and
`k.epoch.notBefore - 1`) with any `k2`, `k3`, `dsForServer` returns the
delegation secret built solely from `k`'s fields. -/
theorem dsForServer_first_response (sd : Connector) (now : Int)
    (meta : Lvl2Meta) (k k2 k3 : Lvl2Key)
    (h1 : sd { meta := dsMetaOf meta, valTime := now, timeoutSec := 10 } =
      Except.ok k)
    (h2 : sd { meta := dsMetaOf meta, valTime := k.epoch.notAfter + 1,
               timeoutSec := 10 } = Except.ok k2)
    (h3 : sd { meta := dsMetaOf meta, valTime := k.epoch.notBefore - 1,
               timeoutSec := 10 } = Except.ok k3) :
    dsForServer sd now meta = Except.ok
      { protocol := k.protocol, epoch := k.epoch, srcIA := k.srcIA,
        dstIA := k.dstIA, key := k.key } := by
  simp [dsForServer, h1, h2, h3, bind, Except.bind, Functor.map, Except.map,
    pure, Except.pure]

/-- C5 witness at a concrete connector and metadata. -/
theorem dsForServer_first_response_witness :
    dsForServer egConnector 0 egMeta = Except.ok
      { protocol := egKey.protocol, epoch := egKey.epoch,
        srcIA := egKey.srcIA, dstIA := egKey.dstIA, key := egKey.key } :=
  dsForServer_first_response egConnector 0 egMeta egKey egKey egKey rfl rfl rfl

/-! ## C1: the foreign-call shim's successful path -/

/-- C1: on a successful run, `GetDelegationSecret` connects to the
daemon at `sciondAddr` and issues the single request `gdsRequest`, which
carries AS2AS level-2 metadata under the fixed protocol name "piskes"
with the IAs decoded from the two packed 64-bit integers, the validity
time `valTime` (Unix seconds), and the 10-second timeout; it writes the
returned epoch's bounds through the two output pointers and copies the
16-byte key into the caller's 16-byte buffer. -/
theorem GetDelegationSecret_correct (svc : SciondService)
    (sciondAddr : String) (srcIA dstIA : Nat) (valTime : Int)
    (keyBuf : List Nat) (sd : Connector) (k : Lvl2Key)
    (hc : svc.connect sciondAddr = Except.ok sd)
    (hk : sd (gdsRequest srcIA dstIA valTime) = Except.ok k) :
    (gdsRequest srcIA dstIA valTime).meta.keyType = KeyType.as2AS ∧
    (gdsRequest srcIA dstIA valTime).meta.protocol = "piskes" ∧
    (gdsRequest srcIA dstIA valTime).meta.srcIA = iaIntIA srcIA ∧
    (gdsRequest srcIA dstIA valTime).meta.dstIA = iaIntIA dstIA ∧
    (gdsRequest srcIA dstIA valTime).valTime = valTime ∧
    (gdsRequest srcIA dstIA valTime).timeoutSec = 10 ∧
    GetDelegationSecret svc sciondAddr srcIA dstIA valTime keyBuf =
      Except.ok { validityNotBefore := k.epoch.notBefore,
                  validityNotAfter := k.epoch.notAfter,
                  key := goCopy keyBuf k.key } ∧
    (keyBuf.length = 16 → k.key.length = 16 → goCopy keyBuf k.key = k.key) := by
  refine ⟨rfl, rfl, rfl, rfl, rfl, rfl, ?_, goCopy_eq_of_lengths keyBuf k.key⟩
  simp [GetDelegationSecret, hc, hk, bind, Except.bind, Functor.map,
    Except.map, pure, Except.pure]

/-- C1 witness at the C caller's concrete arguments, a zeroed 16-byte
buffer, and the fixture daemon. -/
theorem GetDelegationSecret_correct_witness :
    GetDelegationSecret egService "127.0.0.1:30255" 0x0011ffaa00010d69
        0x0011ffaa00010e97 1600000005 (List.replicate 16 0) =
      Except.ok { validityNotBefore := egKey.epoch.notBefore,
                  validityNotAfter := egKey.epoch.notAfter,
                  key := goCopy (List.replicate 16 0) egKey.key } :=
  (GetDelegationSecret_correct egService "127.0.0.1:30255" 0x0011ffaa00010d69
    0x0011ffaa00010e97 1600000005 (List.replicate 16 0) egConnector egKey rfl
    rfl).2.2.2.2.2.2.1

/-! ## C6: every daemon failure is a fatal abort -/

/-- C6: `GetDelegationSecret` never returns a recoverable error: a
connection failure or an RPC failure (timeout included) propagates as the
aborting outcome, and a normal return happens exactly when both daemon
steps succeeded, in which case the result consists precisely of the three
writes to the caller-supplied output locations. -/
theorem GetDelegationSecret_fatal_on_error (svc : SciondService)
    (sciondAddr : String) (srcIA dstIA : Nat) (valTime : Int)
    (keyBuf : List Nat) :
    (∀ e, svc.connect sciondAddr = Except.error e →
      GetDelegationSecret svc sciondAddr srcIA dstIA valTime keyBuf =
        Except.error e) ∧
    (∀ sd e, svc.connect sciondAddr = Except.ok sd →
      sd (gdsRequest srcIA dstIA valTime) = Except.error e →
      GetDelegationSecret svc sciondAddr srcIA dstIA valTime keyBuf =
        Except.error e) ∧
    (∀ out, GetDelegationSecret svc sciondAddr srcIA dstIA valTime keyBuf =
        Except.ok out →
      ∃ sd k, svc.connect sciondAddr = Except.ok sd ∧
        sd (gdsRequest srcIA dstIA valTime) = Except.ok k ∧
        out = { validityNotBefore := k.epoch.notBefore,
                validityNotAfter := k.epoch.notAfter,
                key := goCopy keyBuf k.key }) := by
  refine ⟨?_, ?_, ?_⟩
  · intro e he
    simp [GetDelegationSecret, he, bind, Except.bind]
  · intro sd e hc hk
    simp [GetDelegationSecret, hc, hk, bind, Except.bind]
  · intro out hout
    rcases hcon : svc.connect sciondAddr with e | sd
    · simp [GetDelegationSecret, hcon, bind, Except.bind] at hout
    · rcases hrpc : sd (gdsRequest srcIA dstIA valTime) with e | k
      · simp [GetDelegationSecret, hcon, hrpc, bind, Except.bind] at hout
      · refine ⟨sd, k, rfl, hrpc, ?_⟩
        simp [GetDelegationSecret, hcon, hrpc, bind, Except.bind,
          Functor.map, Except.map, pure, Except.pure] at hout
        exact hout.symm

/-- C6 witness: a failing connection aborts with that very error. -/
theorem GetDelegationSecret_fatal_on_error_witness :
    GetDelegationSecret failService "127.0.0.1:30255" 0 0 0
        (List.replicate 16 0) = Except.error "connection refused" :=
  (GetDelegationSecret_fatal_on_error failService "127.0.0.1:30255" 0 0 0
    (List.replicate 16 0)).1 "connection refused" rfl

/-! ## C10: the key write is bounded by 16 bytes -/

/-- C10: the shim writes at most 16 bytes of key: the buffer stays 16
bytes long, its first `min 16 (length of the returned key)` bytes are the
returned key's prefix, and when the returned key is shorter than 16
bytes the trailing buffer bytes are unmodified. -/
theorem GetDelegationSecret_key_write_bounds (svc : SciondService)
    (sciondAddr : String) (srcIA dstIA : Nat) (valTime : Int)
    (keyBuf : List Nat) (sd : Connector) (k : Lvl2Key)
    (hc : svc.connect sciondAddr = Except.ok sd)
    (hk : sd (gdsRequest srcIA dstIA valTime) = Except.ok k)
    (hbuf : keyBuf.length = 16) :
    ∃ out, GetDelegationSecret svc sciondAddr srcIA dstIA valTime keyBuf =
        Except.ok out ∧
      out.key.length = 16 ∧
      (∀ i, i < min 16 k.key.length → out.key.getD i 0 = k.key.getD i 0) ∧
      (∀ i, k.key.length ≤ i → i < 16 → out.key.getD i 0 = keyBuf.getD i 0) := by
  have hrun := (GetDelegationSecret_correct svc sciondAddr srcIA dstIA valTime
    keyBuf sd k hc hk).2.2.2.2.2.2.1
  refine ⟨_, hrun, ?_, ?_, ?_⟩
  · rw [goCopy_length, hbuf]
  · intro i hi
    simp only [goCopy, hbuf, List.getD_eq_getElem?_getD, List.getElem?_append,
      List.length_take, List.getElem?_take]
    have hmin : min (min 16 k.key.length) k.key.length = min 16 k.key.length := by
      omega
    rw [hmin]
    simp [hi, Nat.lt_min.mp hi]
  · intro i hki hi16
    have hmin : min keyBuf.length k.key.length = k.key.length := by omega
    simp only [goCopy, hbuf, List.getD_eq_getElem?_getD, List.getElem?_append,
      List.length_take, List.getElem?_drop]
    have hlt : ¬ i < min (min 16 k.key.length) k.key.length := by omega
    rw [if_neg hlt]
    have harith : min 16 k.key.length + (i - min (min 16 k.key.length) k.key.length) = i := by
      omega
    rw [harith]

/-- C10 witness: a daemon returning a 4-byte key over a marked 16-byte
buffer: the first 4 bytes are copied, the other 12 left untouched. -/
theorem GetDelegationSecret_key_write_bounds_witness :
    ∃ out,
      GetDelegationSecret
          { connect := fun _ => Except.ok (fun _ =>
              Except.ok { egKey with key := [7, 7, 7, 7] }) }
          "127.0.0.1:30255" 0 0 0 (List.replicate 16 9) = Except.ok out ∧
      out.key.length = 16 ∧
      (∀ i, i < min 16 ([7, 7, 7, 7] : List Nat).length →
        out.key.getD i 0 = ([7, 7, 7, 7] : List Nat).getD i 0) ∧
      (∀ i, ([7, 7, 7, 7] : List Nat).length ≤ i → i < 16 →
        out.key.getD i 0 = (List.replicate 16 9).getD i 0) :=
  GetDelegationSecret_key_write_bounds
    { connect := fun _ => Except.ok (fun _ =>
        Except.ok { egKey with key := [7, 7, 7, 7] }) }
    "127.0.0.1:30255" 0 0 0 (List.replicate 16 9) _ _ rfl rfl (by simp)

/-! ## C4: the derivation lookup key

The Go line is
`piskes := (protocol.KnownDerivations["piskes"]).(protocol.DelegatedDerivation)`:
the registry is consulted under the literal name "piskes", not under
`meta.Protocol`. The claim, which quantifies over every metadata value,
is therefore false for metadata whose protocol name differs from
"piskes". -/

/-- C4 counterexample: in a registry whose only entry is a delegated
derivation under "piskes", a metadata value carrying the unregistered
protocol name "colibri" still derives successfully — the claimed fatal
failure on an unregistered `meta` protocol name does not happen, because
the lookup key is the literal "piskes". -/
theorem HostKeyFromDS_lookup_counterexample :
    colibriMeta.protocol = "colibri" ∧
    piskesOnlyRegistry colibriMeta.protocol = none ∧
    HostKeyFromDS piskesOnlyRegistry colibriMeta egDS = Except.ok egKey := by
  refine ⟨rfl, ?_, rfl⟩
  simp [piskesOnlyRegistry, colibriMeta, egMeta]

/-- C4 amended: `HostKeyFromDS` selects the derivation function by
looking up the fixed name "piskes" (regardless of `meta`'s protocol
name) in the registry of known derivations, invokes it with `meta` and
`ds` (propagating its rejection as a fatal error), and fails fatally when
"piskes" is unregistered or its entry is not a delegated derivation. -/
theorem HostKeyFromDS_fixed_piskes_lookup (reg : Registry)
    (meta : Lvl2Meta) (ds : DelegationSecret) :
    (reg "piskes" = none →
      HostKeyFromDS reg meta ds = Except.error assertionFailed) ∧
    (reg "piskes" = some RegEntry.basic →
      HostKeyFromDS reg meta ds = Except.error assertionFailed) ∧
    (∀ deriveLvl2FromDS,
      reg "piskes" = some (RegEntry.delegated deriveLvl2FromDS) →
      HostKeyFromDS reg meta ds = deriveLvl2FromDS meta ds) := by
  refine ⟨fun h => ?_, fun h => ?_, fun f h => ?_⟩ <;>
    simp [HostKeyFromDS, h]

/-- C4 amended witness: with the "piskes"-only registry, any metadata is
passed to the registered delegated derivation. -/
theorem HostKeyFromDS_fixed_piskes_lookup_witness :
    HostKeyFromDS piskesOnlyRegistry colibriMeta egDS =
      (fun (_ : Lvl2Meta) (_ : DelegationSecret) => Except.ok egKey)
        colibriMeta egDS :=
  (HostKeyFromDS_fixed_piskes_lookup piskesOnlyRegistry colibriMeta egDS).2.2
    (fun _ _ => Except.ok egKey) rfl

/-! ## C7: packed-buffer and discrete-pointer variants agree -/

lemma encInt64_length (x : Int) : (encInt64 x).length = 8 := rfl

lemma decNatLE_natLEBytes8 (n : Nat) :
    decNatLE (natLEBytes8 n) = n % 2 ^ 64 := by
  simp only [natLEBytes8, decNatLE]
  omega

lemma decInt64_encInt64 (x : Int) (h1 : -(2 ^ 63) ≤ x) (h2 : x < 2 ^ 63) :
    decInt64 (encInt64 x) = x := by
  simp only [decInt64, encInt64, decNatLE_natLEBytes8]
  have hx0 : (0 : Int) ≤ x % 2 ^ 64 := Int.emod_nonneg x (by norm_num)
  have hx1 : x % 2 ^ 64 < 2 ^ 64 := Int.emod_lt_of_pos x (by norm_num)
  have hxv : x % 2 ^ 64 = x ∨ x % 2 ^ 64 = x + 2 ^ 64 := by omega
  split <;> omega

/-- C7: given identical inputs and identical daemon responses (whose
epoch bounds fit in signed 64 bits), the discrete-pointer shim over a
zeroed 16-byte buffer and the packed-buffer shim over a zeroed 32-byte
buffer both succeed, and decoding the packed buffer by the fixed
8+8+16 layout yields exactly the not-before, not-after, and key bytes the
discrete-pointer variant writes. -/
theorem packed_discrete_agree (svc : SciondService) (sciondAddr : String)
    (srcIA dstIA : Nat) (valTime : Int) (sd : Connector) (k : Lvl2Key)
    (hc : svc.connect sciondAddr = Except.ok sd)
    (hk : sd (gdsRequest srcIA dstIA valTime) = Except.ok k)
    (hnb1 : -(2 ^ 63) ≤ k.epoch.notBefore) (hnb2 : k.epoch.notBefore < 2 ^ 63)
    (hna1 : -(2 ^ 63) ≤ k.epoch.notAfter) (hna2 : k.epoch.notAfter < 2 ^ 63) :
    ∃ out pbuf,
      GetDelegationSecret svc sciondAddr srcIA dstIA valTime
        (List.replicate 16 0) = Except.ok out ∧
      GetDelegationSecretPacked svc sciondAddr srcIA dstIA valTime
        (List.replicate 32 0) = Except.ok pbuf ∧
      decodePacked pbuf =
        (out.validityNotBefore, out.validityNotAfter, out.key) := by
  have hout := (GetDelegationSecret_correct svc sciondAddr srcIA dstIA valTime
    (List.replicate 16 0) sd k hc hk).2.2.2.2.2.2.1
  have hpacked : GetDelegationSecretPacked svc sciondAddr srcIA dstIA valTime
      (List.replicate 32 0) = Except.ok
        (encInt64 k.epoch.notBefore ++ encInt64 k.epoch.notAfter ++
          goCopy (((List.replicate 32 0).drop 16).take 16) k.key) := by
    simp [GetDelegationSecretPacked, hc, hk, bind, Except.bind, Functor.map,
      Except.map, pure, Except.pure]
  refine ⟨_, _, hout, hpacked, ?_⟩
  have hdrop : ((List.replicate 32 (0 : Nat)).drop 16).take 16 =
      List.replicate 16 0 := by
    simp [List.drop_replicate, List.take_replicate]
  rw [hdrop]
  have hlen8 : (encInt64 k.epoch.notBefore).length = 8 := encInt64_length _
  have hlen16 : (encInt64 k.epoch.notBefore ++ encInt64 k.epoch.notAfter).length
      = 16 := by
    simp [encInt64_length]
  have hcopylen : (goCopy (List.replicate 16 0) k.key).length = 16 := by
    rw [goCopy_length]
    simp
  unfold decodePacked
  rw [List.append_assoc]
  rw [List.take_left' hlen8]
  rw [List.drop_left' hlen8]
  rw [← List.append_assoc]
  rw [List.drop_left' hlen16]
  rw [List.take_left' (encInt64_length _)]
  have htake : (goCopy (List.replicate 16 0) k.key).take 16 =
      goCopy (List.replicate 16 0) k.key :=
    List.take_of_length_le (le_of_eq hcopylen)
  rw [htake, decInt64_encInt64 _ hnb1 hnb2, decInt64_encInt64 _ hna1 hna2]

/-- C7 witness at the fixture daemon: the packed buffer decodes to the
discrete writes. -/
theorem packed_discrete_agree_witness :
    ∃ out pbuf,
      GetDelegationSecret egService "127.0.0.1:30255" 0x0011ffaa00010d69
        0x0011ffaa00010e97 1600000005 (List.replicate 16 0) =
        Except.ok out ∧
      GetDelegationSecretPacked egService "127.0.0.1:30255" 0x0011ffaa00010d69
        0x0011ffaa00010e97 1600000005 (List.replicate 32 0) =
        Except.ok pbuf ∧
      decodePacked pbuf =
        (out.validityNotBefore, out.validityNotAfter, out.key) :=
  packed_discrete_agree egService "127.0.0.1:30255" 0x0011ffaa00010d69
    0x0011ffaa00010e97 1600000005 egConnector egKey rfl rfl
    (by norm_num [egKey]) (by norm_num [egKey]) (by norm_num [egKey])
    (by norm_num [egKey])

/-! ## Parser helper lemmas -/

lemma takeWhile_append_eq {α : Type} (p : α → Bool) (l r : List α) (x : α)
    (hl : ∀ c ∈ l, p c = true) (hx : p x = false) :
    (l ++ x :: r).takeWhile p = l := by
  induction l with
  | nil => simp [List.takeWhile_cons, hx]
  | cons a t ih =>
    have ha := hl a (List.mem_cons_self a t)
    simp only [List.cons_append, List.takeWhile_cons, ha, if_true]
    rw [ih (fun c hc => hl c (List.mem_cons_of_mem a hc))]

lemma dropWhile_append_eq {α : Type} (p : α → Bool) (l r : List α) (x : α)
    (hl : ∀ c ∈ l, p c = true) (hx : p x = false) :
    (l ++ x :: r).dropWhile p = x :: r := by
  induction l with
  | nil => simp [List.dropWhile_cons, hx]
  | cons a t ih =>
    have ha := hl a (List.mem_cons_self a t)
    simp only [List.cons_append, List.dropWhile_cons, ha, if_true]
    exact ih (fun c hc => hl c (List.mem_cons_of_mem a hc))

/-- Every character of a string matching `\d+-[\d:A-Fa-f]+` is a digit,
a dash, or a hex/colon character. -/
lemma matchIA_mem (l : List Char) (h : matchIA l = true) :
    ∀ c ∈ l, c.isDigit = true ∨ c = '-' ∨ isHexColon c = true := by
  intro c hc
  rcases hdrop : l.dropWhile Char.isDigit with _ | ⟨x, hs⟩
  · unfold matchIA at h
    rw [hdrop] at h
    simp at h
  · unfold matchIA at h
    rw [hdrop] at h
    simp only [Bool.and_eq_true, beq_iff_eq, Bool.not_eq_true',
      List.isEmpty_eq_false_iff_exists_mem, List.all_eq_true] at h
    obtain ⟨⟨⟨-, hx⟩, -⟩, hall⟩ := h
    have hsplit := List.takeWhile_append_dropWhile Char.isDigit l
    rw [hdrop] at hsplit
    rw [← hsplit] at hc
    rcases List.mem_append.mp hc with h1 | h2
    · exact Or.inl (List.mem_takeWhile_imp h1)
    · rcases List.mem_cons.mp h2 with hcx | hin
      · exact Or.inr (Or.inl (hcx.trans hx))
      · exact Or.inr (Or.inr (hall c hin))

/-- No character of a matching IA substring is a comma. -/
lemma matchIA_ne_comma (l : List Char) (h : matchIA l = true) :
    ∀ c ∈ l, c ≠ ',' := by
  intro c hc hcc
  subst hcc
  rcases matchIA_mem l h ',' hc with hd | he | hh
  · exact absurd hd (by decide)
  · exact absurd he (by decide)
  · exact absurd hh (by decide)

/-- On a well-formed subject `g1 ++ "," ++ "[" ++ g2 ++ "]"` (with `g1`
matching the IA pattern and `g2` a nonempty run without a closing
bracket), the regex match succeeds with exactly these capture groups. -/
lemma findSubmatch_eq (g1 g2 : List Char) (h1 : matchIA g1 = true)
    (h2 : g2 ≠ []) (h3 : ∀ c ∈ g2, c ≠ ']') :
    findSubmatch (g1 ++ ',' :: '[' :: (g2 ++ [']'])) = some (g1, g2) := by
  have hg1 : ∀ c ∈ g1, (fun c => (c ≠ ',' : Bool)) c = true := by
    intro c hc
    simpa using matchIA_ne_comma g1 h1 c hc
  have hxf : (fun c => (c ≠ ',' : Bool)) ',' = false := by simp
  have ht := takeWhile_append_eq (fun c => (c ≠ ',' : Bool))
    g1 ('[' :: (g2 ++ [']'])) ',' hg1 hxf
  have hd := dropWhile_append_eq (fun c => (c ≠ ',' : Bool))
    g1 ('[' :: (g2 ++ [']'])) ',' hg1 hxf
  simp only [findSubmatch, hd, ht, List.getLast?_concat, List.dropLast_concat]
  simp [h1, h2, h3]
  exact fun hmem => h3 ']' hmem rfl

/-! ## C2: well-formed endpoint strings parse exactly -/

/-- C2: for a well-formed endpoint string built from an IA-shaped
substring `g1` that the IA parser accepts and a bracketed host substring
`g2` resolving either to a service alias or to an IP literal,
`addrFromString` succeeds and returns exactly the parsed IA and host,
unaltered, with no error. -/
theorem addrFromString_wellFormed_correct (iaF : String → Option IA)
    (svcF : String → Nat) (ipF : String → Option HostAddr)
    (g1 g2 : List Char) (ia : IA)
    (h1 : matchIA g1 = true) (h2 : g2 ≠ []) (h3 : ∀ c ∈ g2, c ≠ ']')
    (hia : iaF (String.mk g1) = some ia) :
    (svcF (String.mk g2) ≠ SvcNone →
      addrFromString iaF svcF ipF
          (String.mk (g1 ++ ',' :: '[' :: (g2 ++ [']']))) =
        ({ ia := ia, host := some (HostAddr.svc (svcF (String.mk g2))) },
          none)) ∧
    (∀ h, svcF (String.mk g2) = SvcNone → ipF (String.mk g2) = some h →
      addrFromString iaF svcF ipF
          (String.mk (g1 ++ ',' :: '[' :: (g2 ++ [']']))) =
        ({ ia := ia, host := some h }, none)) := by
  have hfind : findSubmatch
      (String.mk (g1 ++ ',' :: '[' :: (g2 ++ [']']))).data = some (g1, g2) :=
    findSubmatch_eq g1 g2 h1 h2 h3
  constructor
  · intro hsvc
    simp [addrFromString, hfind, hia, hsvc]
  · intro h hsvc hip
    simp [addrFromString, hfind, hia, hsvc, hip]

/-- C2 witness: the concrete subject "1-ff,[127]" under the fixture
parsers parses to IA (1, 255) and host 127. -/
theorem addrFromString_wellFormed_correct_witness :
    addrFromString egIaF egSvcF egIpF
        (String.mk (['1', '-', 'f', 'f'] ++ ',' :: '[' ::
          (['1', '2', '7'] ++ [']']))) =
      ({ ia := { isd := 1, as_ := 255 }, host := some (HostAddr.ip [127]) },
        none) :=
  (addrFromString_wellFormed_correct egIaF egSvcF egIpF
    ['1', '-', 'f', 'f'] ['1', '2', '7'] { isd := 1, as_ := 255 }
    (by decide) (by decide) (by decide) (by simp [egIaF])).2
    (HostAddr.ip [127]) (by simp [egSvcF]) (by simp [egIpF])

/-! ## C3: failure cases: three distinct error classes, zero value -/

/-- C3: `addrFromString` reports an overall-shape mismatch as
`noValidSCIONAddress` (carrying the whole input), an IA-parse failure as
`invalidIA` (carrying group 1), and a host substring that is neither a
service alias nor an IP literal as `invalidIPAddress` (carrying group 2);
every failure returns the zero `SCIONAddress`, and it succeeds exactly
when the shape matches, the IA parses, and the host resolves. -/
theorem addrFromString_error_classes (iaF : String → Option IA)
    (svcF : String → Nat) (ipF : String → Option HostAddr) :
    (∀ address, findSubmatch address.data = none →
      addrFromString iaF svcF ipF address =
        (zeroSCIONAddress, some (AddrErr.noValidSCIONAddress address))) ∧
    (∀ address g1 g2, findSubmatch address.data = some (g1, g2) →
      iaF (String.mk g1) = none →
      addrFromString iaF svcF ipF address =
        (zeroSCIONAddress, some (AddrErr.invalidIA (String.mk g1)))) ∧
    (∀ address g1 g2 ia, findSubmatch address.data = some (g1, g2) →
      iaF (String.mk g1) = some ia → svcF (String.mk g2) = SvcNone →
      ipF (String.mk g2) = none →
      addrFromString iaF svcF ipF address =
        (zeroSCIONAddress, some (AddrErr.invalidIPAddress (String.mk g2)))) ∧
    (∀ address a e, addrFromString iaF svcF ipF address = (a, some e) →
      a = zeroSCIONAddress) ∧
    (∀ address, (addrFromString iaF svcF ipF address).2 = none ↔
      ∃ g1 g2, findSubmatch address.data = some (g1, g2) ∧
        (∃ ia, iaF (String.mk g1) = some ia) ∧
        (svcF (String.mk g2) ≠ SvcNone ∨
          ∃ h, ipF (String.mk g2) = some h)) := by
  refine ⟨?_, ?_, ?_, ?_, ?_⟩
  · intro address hf
    simp [addrFromString, hf]
  · intro address g1 g2 hf hia
    simp [addrFromString, hf, hia]
  · intro address g1 g2 ia hf hia hsvc hip
    simp [addrFromString, hf, hia, hsvc, hip]
  · intro address a e h
    rcases hf : findSubmatch address.data with _ | ⟨g1, g2⟩
    · simp [addrFromString, hf] at h
      exact h.1.symm
    · rcases hia : iaF (String.mk g1) with _ | ia
      · simp [addrFromString, hf, hia] at h
        exact h.1.symm
      · by_cases hsvc : svcF (String.mk g2) = SvcNone
        · rcases hip : ipF (String.mk g2) with _ | l3
          · simp [addrFromString, hf, hia, hsvc, hip] at h
            exact h.1.symm
          · simp [addrFromString, hf, hia, hsvc, hip] at h
        · simp [addrFromString, hf, hia, hsvc] at h
  · intro address
    rcases hf : findSubmatch address.data with _ | ⟨g1, g2⟩
    · simp [addrFromString, hf]
    · rcases hia : iaF (String.mk g1) with _ | ia
      · simp [addrFromString, hf, hia]
      · by_cases hsvc : svcF (String.mk g2) = SvcNone
        · rcases hip : ipF (String.mk g2) with _ | l3
          · simp [addrFromString, hf, hia, hsvc, hip]
          · constructor
            · intro _
              exact ⟨g1, g2, rfl, ⟨ia, hia⟩, Or.inr ⟨l3, hip⟩⟩
            · intro _
              simp [addrFromString, hf, hia, hsvc, hip]
        · constructor
          · intro _
            exact ⟨g1, g2, rfl, ⟨ia, hia⟩, Or.inl hsvc⟩
          · intro _
            simp [addrFromString, hf, hia, hsvc]

/-- C3 witness: the malformed input "nope" yields the zero address with
the shape-mismatch error. -/
theorem addrFromString_error_classes_witness :
    addrFromString egIaF egSvcF egIpF "nope" =
      (zeroSCIONAddress, some (AddrErr.noValidSCIONAddress "nope")) :=
  (addrFromString_error_classes egIaF egSvcF egIpF).1 "nope" (by decide)

end HelloDRKey
